import Mathlib

/-!
# Documind.ai — verification of the specification against the code

Shallow embedding of the Documind.ai (Autophile) frontend
(`frontend/src/lib/api.ts`, `frontend/src/store/index.ts`,
`frontend/src/components/layout/DocumentLibrary.tsx`) together with
spec-modelled definitions for backend components whose source is not in
the repository snapshot (retrieval engine, stream emitter, citation
mapper, upload validation).  All machine numbers that matter here are
either integers (ids, sizes, page numbers) or values only compared with
`min`/`max` (zoom, similarity scores), so `Int`/`Nat`/`ℚ` model them
exactly.
-/

/-- Document status, from `interface Document` in `api.ts`:
`status: 'uploaded' | 'processing' | 'ready' | 'failed'`. -/
inductive DocStatus
  | uploaded
  | processing
  | ready
  | failed
deriving DecidableEq, Repr

/-- A field of a TypeScript interface: its name and whether its declared
type admits `null` (`T | null`). -/
structure TsField where
  name : String
  nullable : Bool
deriving DecidableEq, Repr

/-- TS `interface Citation` from `api.ts` (lines 72–77):
`page: number; text: string; chunk_id: number; section: string | null`. -/
def citationFields : List TsField :=
  [⟨"page", false⟩, ⟨"text", false⟩, ⟨"chunk_id", false⟩, ⟨"section", true⟩]

/-- TS `interface ChatMessage` from `api.ts` (lines 79–85):
`id: number; role: 'user' | 'assistant'; content: string;
citations: Citation[] | null; created_at: string`. -/
def chatMessageFields : List TsField :=
  [⟨"id", false⟩, ⟨"role", false⟩, ⟨"content", false⟩,
   ⟨"citations", true⟩, ⟨"created_at", false⟩]

/-- TS `interface ChatResponse` from `api.ts` (lines 87–92):
`session_id: number; message_id: number; content: string;
citations: Citation[]`. -/
def chatResponseFields : List TsField :=
  [⟨"session_id", false⟩, ⟨"message_id", false⟩,
   ⟨"content", false⟩, ⟨"citations", false⟩]

/-- Top-level fields of the value returned by `chatApi.getHistory`
(`api.ts` line 253): `{ session_id: number; document_id: number;
messages: ChatMessage[] }`. -/
def chatHistoryFields : List String :=
  ["session_id", "document_id", "messages"]

/-- Look a field up by name in an interface embedding. -/
def fieldOf (fs : List TsField) (n : String) : Option TsField :=
  fs.find? (fun f => f.name == n)

/-- JSON serialization of an object literal, field values abstracted to
an arbitrary type: `JSON.stringify` drops fields whose value is
`undefined`, keeping declared order otherwise. -/
def jsonFields {α : Type} (obj : List (String × Option α)) : List (String × α) :=
  obj.filterMap (fun p => (p.2).map (fun v => (p.1, v)))

/-- The request body built by `chatApi.send` (`api.ts` lines 200–207):
the object literal `{document_id, message, session_id}`, where
`session_id` is `undefined` (hence dropped from the JSON body) when the
caller passed no session id.  Values are abstracted to strings. -/
def chatSendBody (documentId : Int) (message : String) (sessionId : Option Int) :
    List (String × String) :=
  jsonFields
    [("document_id", some (toString documentId)),
     ("message", some message),
     ("session_id", sessionId.map toString)]

/-! ## The Zustand application store (`store/index.ts`) -/

/-- TS `interface Document` from `api.ts` (lines 60–70); `tags` is a string
record or `null`. -/
structure DocumentRec where
  id : Int
  filename : String
  original_filename : String
  file_size : Int
  page_count : Option Int
  status : DocStatus
  tags : Option (List (String × String))
  created_at : String
  processed_at : Option String
deriving DecidableEq, Repr

/-- A client-side citation value, `interface Citation` in `api.ts`:
`chunk_id` is a plain `number` there and `section` may be `null`
(field named `sectionLabel` here because `section` is a Lean keyword). -/
structure ClientCitation where
  page : Int
  text : String
  chunk_id : Int
  sectionLabel : Option String
deriving DecidableEq, Repr

/-- The state of the Zustand store in `store/index.ts` (data fields of
`AppState`). -/
structure AppState where
  currentDocument : Option DocumentRec
  currentPage : Int
  zoom : ℚ
  activeCitation : Option ClientCitation
  chatSessionId : Option Int
  isChatOpen : Bool
  documents : List DocumentRec
  guestDocIds : List Int
  isLoginModalOpen : Bool
deriving DecidableEq, Repr

/-- The store's initial state (`store/index.ts` initializers). -/
def initialState : AppState :=
  { currentDocument := none
    currentPage := 1
    zoom := 1
    activeCitation := none
    chatSessionId := none
    isChatOpen := true
    documents := []
    guestDocIds := []
    isLoginModalOpen := false }

/-- Action `setCurrentDocument` (`store/index.ts` lines 51–56). -/
def setCurrentDocument (doc : Option DocumentRec) (s : AppState) : AppState :=
  { s with currentDocument := doc, currentPage := 1,
           chatSessionId := none, activeCitation := none }

/-- Action `setCurrentPage` (`store/index.ts` line 60). -/
def setCurrentPage (page : Int) (s : AppState) : AppState :=
  { s with currentPage := page }

/-- Action `setZoom` (`store/index.ts` line 62):
`set(\x7b zoom: Math.max(0.5, Math.min(3, zoom)) \x7d)`. -/
def setZoom (zoom : ℚ) (s : AppState) : AppState :=
  { s with zoom := max (1/2 : ℚ) (min 3 zoom) }

/-- Action `setActiveCitation` (`store/index.ts` lines 66–72): with a citation
it also navigates to the citation's page; with `null` it only clears the
active citation. -/
def setActiveCitation (citation : Option ClientCitation) (s : AppState) : AppState :=
  match citation with
  | some c => { s with activeCitation := some c, currentPage := c.page }
  | none => { s with activeCitation := none }

/-- Action `setChatSessionId` (`store/index.ts` line 76). -/
def setChatSessionId (id : Option Int) (s : AppState) : AppState :=
  { s with chatSessionId := id }

/-- Action `toggleChat` (`store/index.ts` line 78). -/
def toggleChat (s : AppState) : AppState :=
  { s with isChatOpen := !s.isChatOpen }

/-- Action `setDocuments` (`store/index.ts` line 82). -/
def setDocuments (docs : List DocumentRec) (s : AppState) : AppState :=
  { s with documents := docs }

/-- Action `addDocument` (`store/index.ts` lines 83–85): prepends. -/
def addDocument (doc : DocumentRec) (s : AppState) : AppState :=
  { s with documents := doc :: s.documents }

/-- A `Partial<Document>` value: each field optionally overridden, as in
the spread merge `\x7b ...d, ...updates \x7d`. -/
structure DocumentPatch where
  id : Option Int := none
  filename : Option String := none
  original_filename : Option String := none
  file_size : Option Int := none
  page_count : Option (Option Int) := none
  status : Option DocStatus := none
  tags : Option (Option (List (String × String))) := none
  created_at : Option String := none
  processed_at : Option (Option String) := none

/-- Spread merge `\x7b ...d, ...updates \x7d` of a document with a
partial update. -/
def mergePatch (d : DocumentRec) (u : DocumentPatch) : DocumentRec :=
  { id := u.id.getD d.id
    filename := u.filename.getD d.filename
    original_filename := u.original_filename.getD d.original_filename
    file_size := u.file_size.getD d.file_size
    page_count := u.page_count.getD d.page_count
    status := u.status.getD d.status
    tags := u.tags.getD d.tags
    created_at := u.created_at.getD d.created_at
    processed_at := u.processed_at.getD d.processed_at }

/-- Action `updateDocument` (`store/index.ts` lines 86–90). -/
def updateDocument (id : Int) (updates : DocumentPatch) (s : AppState) : AppState :=
  { s with documents :=
      s.documents.map (fun d => if d.id = id then mergePatch d updates else d) }

/-- Action `removeDocument` (`store/index.ts` lines 91–93). -/
def removeDocument (id : Int) (s : AppState) : AppState :=
  { s with documents := s.documents.filter (fun d => d.id ≠ id) }

/-- Action `addGuestDocId` (`store/index.ts` line 97): appends. -/
def addGuestDocId (id : Int) (s : AppState) : AppState :=
  { s with guestDocIds := s.guestDocIds ++ [id] }

/-- Action `clearGuestDocIds` (`store/index.ts` line 98). -/
def clearGuestDocIds (s : AppState) : AppState :=
  { s with guestDocIds := [] }

/-- Action `setLoginModalOpen` (`store/index.ts` line 102). -/
def setLoginModalOpen (isOpen : Bool) (s : AppState) : AppState :=
  { s with isLoginModalOpen := isOpen }

/-- One invocation of a store action, with its payload. -/
inductive StoreOp
  | setCurrentDocument (doc : Option DocumentRec)
  | setCurrentPage (page : Int)
  | setZoom (zoom : ℚ)
  | setActiveCitation (citation : Option ClientCitation)
  | setChatSessionId (id : Option Int)
  | toggleChat
  | setDocuments (docs : List DocumentRec)
  | addDocument (doc : DocumentRec)
  | updateDocument (id : Int) (updates : DocumentPatch)
  | removeDocument (id : Int)
  | addGuestDocId (id : Int)
  | clearGuestDocIds
  | setLoginModalOpen (isOpen : Bool)

/-- Apply one store action. -/
def applyOp (op : StoreOp) (s : AppState) : AppState :=
  match op with
  | .setCurrentDocument doc => setCurrentDocument doc s
  | .setCurrentPage page => setCurrentPage page s
  | .setZoom z => setZoom z s
  | .setActiveCitation c => setActiveCitation c s
  | .setChatSessionId id => setChatSessionId id s
  | .toggleChat => toggleChat s
  | .setDocuments docs => setDocuments docs s
  | .addDocument doc => addDocument doc s
  | .updateDocument id u => updateDocument id u s
  | .removeDocument id => removeDocument id s
  | .addGuestDocId id => addGuestDocId id s
  | .clearGuestDocIds => clearGuestDocIds s
  | .setLoginModalOpen b => setLoginModalOpen b s

/-- Apply a sequence of store actions in order. -/
def applyOps (ops : List StoreOp) (s : AppState) : AppState :=
  ops.foldl (fun s op => applyOp op s) s

/-! ## Status polling (`DocumentLibrary.tsx`, `pollDocumentStatus`) -/

/-- Outcome of one status request inside `checkStatus`
(`DocumentLibrary.tsx` lines 129–149): either the fetched document's
status, or a request error (`notFound` when the response status is 404). -/
inductive PollResult
  | success (st : DocStatus)
  | failure (notFound : Bool)
deriving DecidableEq, Repr

/-- Whether `checkStatus` schedules another `checkStatus` call after this
result: on success it re-polls exactly while the status is `uploaded` or
`processing`; on a 404 it stops, on any other error it retries. -/
def schedulesNext : PollResult → Bool
  | .success st => st == .uploaded || st == .processing
  | .failure notFound => !notFound

/-- The statuses actually observed by the polling loop when the backend
would answer the given sequence of statuses to successive requests: each
observed status triggers the next request exactly under the
`uploaded`/`processing` condition of `checkStatus`. -/
def pollTrace : List DocStatus → List DocStatus
  | [] => []
  | st :: rest =>
    st :: (if st == .uploaded || st == .processing then pollTrace rest else [])

/-! ## Upload validation (`DocumentLibrary.tsx` `useDropzone`, README limits) -/

/-- The facts about an offered file that the upload checks look at. -/
structure UploadFile where
  isPdf : Bool
  size : Nat
  pageCount : Nat
deriving DecidableEq, Repr

/-- Option `maxSize: 50 * 1024 * 1024` from the `useDropzone` options
(`DocumentLibrary.tsx` line 158). -/
def maxFileSize : Nat := 50 * 1024 * 1024

/-- Limit `MAX_PAGES=100` (README configuration and Limits sections). -/
def maxPages : Nat := 100

/-- The client-side dropzone filter (`DocumentLibrary.tsx` lines
154–159): only `application/pdf` files up to `maxSize` are accepted. -/
def dropzoneAccepts (f : UploadFile) : Bool :=
  f.isPdf && decide (f.size ≤ maxFileSize)

/-- Result of the upload endpoint: either a validation rejection, or the
created document's status together with whether ingestion was
triggered. -/
structure UploadOutcome where
  accepted : Bool
  docStatus : Option DocStatus
  ingestionTriggered : Bool
deriving DecidableEq, Repr

/-- Modelled from the spec: the backend upload endpoint (its source is
not in the snapshot).  "Upload: accepts a PDF; rejects with a validation
error if type, size, or page count exceed configured limits; on
acceptance, returns a Document in UPLOADED status and triggers
ingestion."  The configured limits are 50 MB and 100 pages (README). -/
def uploadEndpoint (f : UploadFile) : UploadOutcome :=
  if f.isPdf ∧ f.size ≤ maxFileSize ∧ f.pageCount ≤ maxPages then
    ⟨true, some .uploaded, true⟩
  else
    ⟨false, none, false⟩

/-- The whole upload path: the dropzone only hands accepted files to
`processUpload`, which posts them to the upload endpoint. -/
def uploadFlow (f : UploadFile) : UploadOutcome :=
  if dropzoneAccepts f then uploadEndpoint f else ⟨false, none, false⟩

/-! ## Retrieval engine (spec-modelled; backend source not in snapshot) -/

/-- A stored chunk as ranked by retrieval: its id, its ordinal position
within the document, and its similarity to the current query.  Cosine
similarity of fixed-dimension vectors is abstracted to a precomputed
rational score per chunk, which is all the ranking properties depend
on. -/
structure RChunk where
  id : Int
  ordinal : Nat
  sim : ℚ
deriving DecidableEq, Repr

/-- The retrieval ranking order: strictly greater similarity first, ties
broken by ascending chunk ordinal. -/
def rankLE (a b : RChunk) : Prop :=
  b.sim < a.sim ∨ (a.sim = b.sim ∧ a.ordinal ≤ b.ordinal)

instance : DecidableRel rankLE := fun a b => by
  unfold rankLE; exact inferInstance

instance : IsTotal RChunk rankLE := by
  constructor
  intro a b
  unfold rankLE
  rcases lt_trichotomy a.sim b.sim with h | h | h
  · exact Or.inr (Or.inl h)
  · rcases Nat.le_total a.ordinal b.ordinal with h2 | h2
    · exact Or.inl (Or.inr ⟨h, h2⟩)
    · exact Or.inr (Or.inr ⟨h.symm, h2⟩)
  · exact Or.inl (Or.inl h)

instance : IsTrans RChunk rankLE := by
  constructor
  intro a b c hab hbc
  unfold rankLE at *
  rcases hab with h1 | ⟨h1, h1o⟩ <;> rcases hbc with h2 | ⟨h2, h2o⟩
  · exact Or.inl (h2.trans h1)
  · exact Or.inl (h2 ▸ h1)
  · exact Or.inl (h1 ▸ h2)
  · exact Or.inr ⟨h1.trans h2, h1o.trans h2o⟩

/-- Modelled from the spec: `retrieve(document_id, query_text, k)` of
the Vector Store / Retrieval Engine (its source is not in the snapshot).
"computes similarity (cosine) against all chunks of that document,
returns the top-k by descending similarity; ties broken by ascending
chunk ordinal (earlier position wins)".  `chunks` are the document's
chunks with their (cosine) similarity to the embedded query already
attached. -/
def retrieve (chunks : List RChunk) (k : Nat) : List RChunk :=
  (List.insertionSort rankLE chunks).take k

/-! ## Streaming chat events (spec-modelled; backend source not in snapshot) -/

/-- A typed server-sent chat event, from the spec's interface list:
`thinking` (stage label, content, optional context preview), `content`
(incremental text), `citations`, and the terminal marker. -/
inductive StreamEvent
  | thinking (stage content : String) (context : Option String)
  | content (text : String)
  | citations (pages : List Int)
  | terminalMarker
deriving DecidableEq, Repr

/-- Position of an event kind in the mandated order:
thinking (0) before content (1) before citations (2) before the
terminal marker (3). -/
def kindIndex : StreamEvent → Nat
  | .thinking _ _ _ => 0
  | .content _ => 1
  | .citations _ => 2
  | .terminalMarker => 3

/-- Payload of one `thinking` event. -/
structure ThinkingInfo where
  stage : String
  content : String
  context : Option String

/-- Modelled from the spec: the event sequence the Chat Orchestrator
emits for one streamed response (its source is not in the snapshot):
"zero or more `thinking` events …, then interleaved `content` events
carrying incremental text, then a single `citations` event, then a
terminal marker." -/
def streamResponse (thinks : List ThinkingInfo) (tokens : List String)
    (pages : List Int) : List StreamEvent :=
  thinks.map (fun t => .thinking t.stage t.content t.context)
    ++ tokens.map .content
    ++ [.citations pages, .terminalMarker]

/-! ## Citation mapper (spec-modelled; backend source not in snapshot) -/

/-- A retrieved chunk as seen by the citation mapper: id, page, and
retrieval similarity. -/
structure RetrievedChunk where
  id : Int
  page : Int
  sim : ℚ
deriving DecidableEq, Repr

/-- A citation produced by the backend citation mapper: the cited page,
the quoted text, and the referencing chunk id — `none` when the citation
could not be resolved to a retrieved chunk. -/
structure MappedCitation where
  page : Int
  text : String
  chunkRef : Option Int
deriving DecidableEq, Repr

/-- The retrieved chunk on the cited page with the highest similarity,
if any. -/
def bestOnPage (retrieved : List RetrievedChunk) (page : Int) : Option RetrievedChunk :=
  (retrieved.filter (fun c => c.page = page)).foldl
    (fun best c =>
      match best with
      | none => some c
      | some b => if b.sim < c.sim then some c else some b)
    none

/-- Modelled from the spec: the Citation Mapper's resolution of one
citation marker (its source is not in the snapshot): "attempts to
resolve it to a retrieved chunk on the same page; if multiple chunks
match, prefers the one with highest retrieval similarity; if no
retrieved chunk matches the cited page, the citation is still returned
with the literal page number but a null chunk reference (explicitly
marked unresolved) rather than being dropped silently." -/
def resolveCitation (retrieved : List RetrievedChunk) (page : Int)
    (quoted : String) : MappedCitation :=
  match bestOnPage retrieved page with
  | some c => ⟨page, quoted, some c.id⟩
  | none => ⟨page, quoted, none⟩

/-! ## The client SSE stream parser (`api.ts`, `chatApi.stream`)

The generator keeps a string `buffer`; for each received text chunk it
appends the chunk, splits on `'\n'` (`buffer.split('\n')`), keeps the
final (possibly incomplete) piece as the new buffer, and processes every
complete line: lines starting `"data: "` have their payload (everything
after the 6-character marker) either checked against the sentinel
`"[DONE]"` — which ends the whole generator — or parsed as JSON and
yielded, payloads that fail to parse being skipped.  Strings are
modelled as `List Char` and the JSON parser is abstracted to any
`List Char → Option J`. -/

/-- The line marker `"data: "` checked by `line.startsWith('data: ')`. -/
def dataHead : List Char := "data: ".toList

/-- The sentinel payload `"[DONE]"`. -/
def doneMark : List Char := "[DONE]".toList

/-- The complete sentinel line `"data: [DONE]"`. -/
def doneLine : List Char := "data: [DONE]".toList

/-- JavaScript `s.split('\n')` on a character list: the (always
nonempty) list of runs between newline characters. -/
def splitNL : List Char → List (List Char)
  | [] => [[]]
  | c :: cs =>
    if c = '\n' then [] :: splitNL cs
    else
      match splitNL cs with
      | [] => [[c]]
      | l :: ls => (c :: l) :: ls

/-- Processing of one batch of complete lines, exactly as the `for`
loop of `chatApi.stream` does: returns the values yielded from this
batch and whether the `[DONE]` sentinel was hit (which returns from the
generator). -/
def processLines {J : Type} (parse : List Char → Option J) :
    List (List Char) → List J × Bool
  | [] => ([], false)
  | l :: ls =>
    if dataHead.isPrefixOf l then
      let d := l.drop 6
      if d = doneMark then ([], true)
      else
        match parse d with
        | some j =>
          let rest := processLines parse ls
          (j :: rest.1, rest.2)
        | none => processLines parse ls
    else processLines parse ls

/-- The reader loop of `chatApi.stream`: consume the remaining chunks
with the current buffer, collecting everything yielded.  When the
sentinel is hit the generator returns, discarding the rest; when the
reader is exhausted the trailing buffer is discarded unprocessed. -/
def streamChunks {J : Type} (parse : List Char → Option J) :
    List (List Char) → List Char → List J
  | [], _buffer => []
  | c :: cs, buffer =>
    let ls := splitNL (buffer ++ c)
    let out := processLines parse ls.dropLast
    if out.2 then out.1 else out.1 ++ streamChunks parse cs (ls.getLastD [])

/-- Function `chatApi.stream` parsing of a sequence of received text chunks
(`api.ts` lines 227–250), starting from the empty buffer. -/
def chatStream {J : Type} (parse : List Char → Option J)
    (chunks : List (List Char)) : List J :=
  streamChunks parse chunks []

/-- The claim's description of the yielded values, written from the
spec's words for comparison with `chatStream`: take the complete lines
of the whole input (all split pieces except the trailing incomplete
one), keep those before the first `data: [DONE]` line, keep those
prefixed `data: `, and parse their payloads, skipping invalid ones. -/
def sseExpected {J : Type} (parse : List Char → Option J)
    (chunks : List (List Char)) : List J :=
  (((splitNL chunks.flatten).dropLast.takeWhile (fun l => l ≠ doneLine)).filter
      (fun l => dataHead.isPrefixOf l)).filterMap
    (fun l => parse (l.drop 6))

/-- The per-batch yields in the same spec style, used to relate
`processLines` to `sseExpected`. -/
def specLines {J : Type} (parse : List Char → Option J)
    (ls : List (List Char)) : List J :=
  ((ls.takeWhile (fun l => l ≠ doneLine)).filter
      (fun l => dataHead.isPrefixOf l)).filterMap
    (fun l => parse (l.drop 6))

/-- Gluing a pending buffer onto the first piece of a later split:
`glueFirst t (x :: xs) = (t ++ x) :: xs`, and `[t]` on the empty list. -/
def glueFirst (t : List Char) : List (List Char) → List (List Char)
  | [] => [t]
  | x :: xs => (t ++ x) :: xs

/-! ## Lemmas about `splitNL` and the stream parser -/

theorem splitNL_ne_nil (s : List Char) : splitNL s ≠ [] := by
  induction s with
  | nil => simp [splitNL]
  | cons c cs ih =>
    rw [splitNL]
    by_cases h : c = '\n'
    · simp [h]
    · simp only [if_neg h]
      rcases hs : splitNL cs with _ | ⟨l, ls⟩ <;> simp

theorem splitNL_cons_ne (c : Char) (s : List Char) (h : c ≠ '\n') :
    splitNL (c :: s) = glueFirst [c] (splitNL s) := by
  rw [splitNL, if_neg h]
  rcases hs : splitNL s with _ | ⟨l, ls⟩ <;> simp [glueFirst]

theorem getLastD_irrel {α : Type} (l : List α) (h : l ≠ []) (d₁ d₂ : α) :
    l.getLastD d₁ = l.getLastD d₂ := by
  cases l with
  | nil => exact absurd rfl h
  | cons a l => rw [List.getLastD_cons, List.getLastD_cons]

theorem getLastD_mem {α : Type} (l : List α) (h : l ≠ []) (d : α) :
    l.getLastD d ∈ l := by
  induction l generalizing d with
  | nil => exact absurd rfl h
  | cons a l ih =>
    rw [List.getLastD_cons]
    cases l with
    | nil => simp [List.getLastD]
    | cons b l' => exact List.mem_cons_of_mem a (ih (by simp) a)

theorem nl_not_mem_splitNL (s : List Char) : ∀ l ∈ splitNL s, '\n' ∉ l := by
  induction s with
  | nil =>
    intro l hl
    simp [splitNL] at hl
    simp [hl]
  | cons c cs ih =>
    intro l hl
    by_cases h : c = '\n'
    · rw [splitNL, if_pos h] at hl
      rcases List.mem_cons.mp hl with hl | hl
      · simp [hl]
      · exact ih l hl
    · rw [splitNL_cons_ne c cs h] at hl
      rcases hs : splitNL cs with _ | ⟨x, xs⟩
      · exact absurd hs (splitNL_ne_nil cs)
      · rw [hs] at hl
        simp only [glueFirst, List.singleton_append] at hl
        rcases List.mem_cons.mp hl with hl | hl
        · subst hl
          intro hmem
          rcases List.mem_cons.mp hmem with hmem | hmem
          · exact h hmem.symm
          · exact ih x (hs ▸ List.mem_cons_self x xs) hmem
        · exact ih l (hs ▸ List.mem_cons_of_mem x hl)

theorem splitNL_no_nl (s : List Char) (h : '\n' ∉ s) : splitNL s = [s] := by
  induction s with
  | nil => simp [splitNL]
  | cons c cs ih =>
    have hc : c ≠ '\n' := fun hc => h (hc ▸ List.mem_cons_self c cs)
    rw [splitNL_cons_ne c cs hc, ih (fun hm => h (List.mem_cons_of_mem c hm))]
    simp [glueFirst]

theorem splitNL_append (a b : List Char) :
    splitNL (a ++ b) =
      (splitNL a).dropLast ++ glueFirst ((splitNL a).getLastD []) (splitNL b) := by
  induction a with
  | nil =>
    rcases hb : splitNL b with _ | ⟨y, ys⟩
    · exact absurd hb (splitNL_ne_nil b)
    · simp [splitNL, glueFirst, hb]
  | cons c cs ih =>
    by_cases h : c = '\n'
    · subst h
      rcases hs : splitNL cs with _ | ⟨x, xs⟩
      · exact absurd hs (splitNL_ne_nil cs)
      · show splitNL ('\n' :: (cs ++ b)) = _
        rw [splitNL, if_pos rfl, ih, hs]
        rw [show splitNL ('\n' :: cs) = [] :: splitNL cs from by rw [splitNL, if_pos rfl]]
        rw [hs]
        simp [List.getLastD_cons]
    · rw [show (c :: cs) ++ b = c :: (cs ++ b) from rfl]
      rw [splitNL_cons_ne c (cs ++ b) h, ih, splitNL_cons_ne c cs h]
      rcases hs : splitNL cs with _ | ⟨x, xs⟩
      · exact absurd hs (splitNL_ne_nil cs)
      · rcases xs with _ | ⟨z, zs⟩
        · rcases hb : splitNL b with _ | ⟨y, ys⟩
          · exact absurd hb (splitNL_ne_nil b)
          · simp [glueFirst, List.getLastD_cons]
        · simp only [glueFirst, List.dropLast_cons₂, List.getLastD_cons, List.cons_append]

theorem eq_dataHead_append {l : List Char} (h : dataHead.isPrefixOf l) :
    l = dataHead ++ l.drop 6 := by
  rcases List.isPrefixOf_iff_prefix.mp h with ⟨t, ht⟩
  have hd : l.drop 6 = t := by
    rw [← ht, show (6 : Nat) = dataHead.length from rfl, List.drop_left]
  rw [hd, ht]

theorem drop6_eq_doneMark {l : List Char} (hp : dataHead.isPrefixOf l) :
    l.drop 6 = doneMark ↔ l = doneLine := by
  constructor
  · intro hd
    rw [eq_dataHead_append hp, hd]
    rfl
  · intro hl
    subst hl
    rfl

theorem specLines_nil {J : Type} (parse : List Char → Option J) :
    specLines parse [] = [] := rfl

theorem specLines_cons {J : Type} (parse : List Char → Option J)
    (l : List Char) (ls : List (List Char)) :
    specLines parse (l :: ls) =
      if l = doneLine then []
      else if dataHead.isPrefixOf l then
        (match parse (l.drop 6) with
         | some j => j :: specLines parse ls
         | none => specLines parse ls)
      else specLines parse ls := by
  unfold specLines
  by_cases hd : l = doneLine
  · simp [hd, List.takeWhile_cons]
  · by_cases hp : dataHead.isPrefixOf l
    · simp only [hd, if_false, List.takeWhile_cons, decide_not, hp]
      simp [hd, hp, List.filter_cons, List.filterMap_cons]
      cases parse (l.drop 6) <;> simp
    · simp [hd, hp, List.takeWhile_cons, List.filter_cons]

theorem processLines_eq {J : Type} (parse : List Char → Option J)
    (ls : List (List Char)) :
    processLines parse ls = (specLines parse ls, decide (doneLine ∈ ls)) := by
  induction ls with
  | nil => simp [processLines, specLines_nil]
  | cons l ls ih =>
    rw [processLines, specLines_cons]
    by_cases hp : dataHead.isPrefixOf l
    · by_cases hd : l.drop 6 = doneMark
      · have hl : l = doneLine := (drop6_eq_doneMark hp).mp hd
        rw [if_pos hp, if_pos hd, if_pos hl]
        simp [hl, List.mem_cons]
      · have hl : l ≠ doneLine := fun h => hd ((drop6_eq_doneMark hp).mpr h)
        have hF : (doneLine = l) = False := eq_false (Ne.symm hl)
        simp only [hp, if_true, if_neg hd, if_neg hl, ih]
        cases parse (l.drop 6) <;> simp [List.mem_cons, hF]
    · have hl : l ≠ doneLine := by
        intro h
        subst h
        exact hp (show dataHead.isPrefixOf doneLine = true from rfl)
      have hF : (doneLine = l) = False := eq_false (Ne.symm hl)
      simp [hp, hl, ih, List.mem_cons, hF]

theorem specLines_append {J : Type} (parse : List Char → Option J)
    (l1 l2 : List (List Char)) :
    specLines parse (l1 ++ l2) =
      if doneLine ∈ l1 then specLines parse l1
      else specLines parse l1 ++ specLines parse l2 := by
  induction l1 with
  | nil => simp [specLines_nil]
  | cons l ls ih =>
    rw [List.cons_append, specLines_cons, specLines_cons]
    by_cases hd : l = doneLine
    · simp [hd]
    · have hF : (doneLine = l) = False := eq_false (Ne.symm hd)
      by_cases hp : dataHead.isPrefixOf l
      · simp only [if_neg hd, hp, if_true, ih, List.mem_cons, hF, false_or]
        cases parse (l.drop 6) <;> by_cases hm : doneLine ∈ ls <;> simp [hm]
      · simp [hd, hp, ih, List.mem_cons, hF]

theorem streamChunks_eq {J : Type} (parse : List Char → Option J)
    (cs : List (List Char)) :
    ∀ buf : List Char, '\n' ∉ buf →
      streamChunks parse cs buf =
        specLines parse ((splitNL (buf ++ cs.flatten)).dropLast) := by
  induction cs with
  | nil =>
    intro buf hb
    rw [streamChunks, List.flatten_nil, List.append_nil, splitNL_no_nl buf hb]
    rfl
  | cons c cs ih =>
    intro buf hb
    have hls : splitNL (buf ++ c) ≠ [] := splitNL_ne_nil _
    have hlast_mem : (splitNL (buf ++ c)).getLastD [] ∈ splitNL (buf ++ c) :=
      getLastD_mem _ hls []
    have hlast_nl : '\n' ∉ (splitNL (buf ++ c)).getLastD [] :=
      nl_not_mem_splitNL _ _ hlast_mem
    have hG : glueFirst ((splitNL (buf ++ c)).getLastD []) (splitNL cs.flatten) ≠ [] := by
      unfold glueFirst
      rcases splitNL cs.flatten with _ | ⟨x, xs⟩ <;> simp
    have hdrop : (splitNL (buf ++ (c :: cs).flatten)).dropLast =
        (splitNL (buf ++ c)).dropLast ++
          (glueFirst ((splitNL (buf ++ c)).getLastD []) (splitNL cs.flatten)).dropLast := by
      rw [List.flatten_cons, ← List.append_assoc, splitNL_append,
        List.dropLast_append_of_ne_nil _ hG]
    have htail : splitNL ((splitNL (buf ++ c)).getLastD [] ++ cs.flatten) =
        glueFirst ((splitNL (buf ++ c)).getLastD []) (splitNL cs.flatten) := by
      rw [splitNL_append, splitNL_no_nl _ hlast_nl]
      simp
    simp only [streamChunks, processLines_eq]
    by_cases hm : doneLine ∈ (splitNL (buf ++ c)).dropLast
    · rw [hdrop, specLines_append, if_pos hm]
      simp [hm]
    · rw [hdrop, specLines_append, if_neg hm, ih _ hlast_nl, htail]
      simp [hm]

/-- Equivalence driving claim C4: the values `chatApi.stream` yields are
exactly those described by the spec-side `sseExpected`. -/
theorem chatStream_eq_sseExpected {J : Type} (parse : List Char → Option J)
    (chunks : List (List Char)) :
    chatStream parse chunks = sseExpected parse chunks := by
  rw [chatStream, streamChunks_eq parse chunks [] (by simp)]
  rfl

/-! ## Invariant lemmas for the store -/

theorem applyOp_zoom (op : StoreOp) (s : AppState)
    (h1 : 1/2 ≤ s.zoom) (h2 : s.zoom ≤ 3) :
    1/2 ≤ (applyOp op s).zoom ∧ (applyOp op s).zoom ≤ 3 := by
  cases op with
  | setZoom z => exact ⟨le_max_left _ _, max_le (by norm_num) (min_le_left _ _)⟩
  | setActiveCitation c => cases c <;> exact ⟨h1, h2⟩
  | setCurrentDocument d => exact ⟨h1, h2⟩
  | setCurrentPage p => exact ⟨h1, h2⟩
  | setChatSessionId i => exact ⟨h1, h2⟩
  | toggleChat => exact ⟨h1, h2⟩
  | setDocuments d => exact ⟨h1, h2⟩
  | addDocument d => exact ⟨h1, h2⟩
  | updateDocument i u => exact ⟨h1, h2⟩
  | removeDocument i => exact ⟨h1, h2⟩
  | addGuestDocId i => exact ⟨h1, h2⟩
  | clearGuestDocIds => exact ⟨h1, h2⟩
  | setLoginModalOpen b => exact ⟨h1, h2⟩

theorem applyOps_zoom (ops : List StoreOp) :
    ∀ s : AppState, 1/2 ≤ s.zoom → s.zoom ≤ 3 →
      1/2 ≤ (applyOps ops s).zoom ∧ (applyOps ops s).zoom ≤ 3 := by
  induction ops with
  | nil => intro s h1 h2; exact ⟨h1, h2⟩
  | cons op ops ih =>
    intro s h1 h2
    have h := applyOp_zoom op s h1 h2
    exact ih _ h.1 h.2

theorem bestOnPage_eq_none {retrieved : List RetrievedChunk} {page : Int}
    (h : ∀ c ∈ retrieved, c.page ≠ page) : bestOnPage retrieved page = none := by
  unfold bestOnPage
  rw [List.filter_eq_nil_iff.mpr (by intro a ha; simpa using h a ha)]
  rfl

/-! ## The claims -/

/-- C1: for every document and query, `retrieve(document_id, query_text, k)`
returns at most `k` chunks (all of them chunks of the document), sorted by
non-increasing cosine similarity with ties broken by ascending chunk ordinal
(the earlier position wins), and returns fewer than `k` chunks exactly when
the document has fewer than `k` chunks. -/
theorem claim_C1 (chunks : List RChunk) (k : Nat) :
    (retrieve chunks k).length ≤ k ∧
    ((retrieve chunks k).length < k ↔ chunks.length < k) ∧
    (∀ c ∈ retrieve chunks k, c ∈ chunks) ∧
    List.Pairwise (fun a b => b.sim ≤ a.sim ∧ (a.sim = b.sim → a.ordinal ≤ b.ordinal))
      (retrieve chunks k) := by
  have hlen : (retrieve chunks k).length = min k chunks.length := by
    rw [retrieve, List.length_take, List.length_insertionSort]
  refine ⟨?_, ?_, ?_, ?_⟩
  · rw [hlen]; exact min_le_left _ _
  · rw [hlen]; omega
  · intro c hc
    have h1 : c ∈ List.insertionSort rankLE chunks :=
      (List.take_sublist k _).mem hc
    exact (List.perm_insertionSort rankLE chunks).mem_iff.mp h1
  · have hs : List.Sorted rankLE (List.insertionSort rankLE chunks) :=
      List.sorted_insertionSort rankLE chunks
    have ht : List.Pairwise rankLE (retrieve chunks k) :=
      hs.sublist (List.take_sublist k _)
    refine ht.imp ?_
    intro a b hab
    rcases hab with h | ⟨h, ho⟩
    · exact ⟨h.le, fun he => absurd (he ▸ h) (lt_irrefl _)⟩
    · exact ⟨h.ge, fun _ => ho⟩

/-- Witness for C1 at a concrete two-chunk document and `k = 1`. -/
theorem claim_C1_witness :
    (retrieve [⟨1, 0, 1⟩, ⟨2, 1, 2⟩] 1).length ≤ 1 :=
  (claim_C1 [⟨1, 0, 1⟩, ⟨2, 1, 2⟩] 1).1

/-- C2: for every streamed chat response, the emitted event sequence is zero
or more `thinking` events, then the `content` events, then exactly one
`citations` event, then the terminal marker: no event of an earlier kind ever
follows an event of a later kind, the `citations` kind and the terminal
marker each occur exactly once, and the terminal marker comes last. -/
theorem claim_C2 (thinks : List ThinkingInfo) (tokens : List String)
    (pages : List Int) :
    List.Pairwise (fun a b => kindIndex a ≤ kindIndex b)
      (streamResponse thinks tokens pages) ∧
    (streamResponse thinks tokens pages).countP (fun e => kindIndex e == 2) = 1 ∧
    (streamResponse thinks tokens pages).countP (fun e => kindIndex e == 3) = 1 ∧
    (streamResponse thinks tokens pages).getLast? = some .terminalMarker := by
  refine ⟨?_, ?_, ?_, ?_⟩
  · unfold streamResponse
    rw [List.pairwise_append, List.pairwise_append]
    refine ⟨⟨?_, ?_, ?_⟩, ?_, ?_⟩
    · exact List.pairwise_map.mpr (List.pairwise_of_forall (fun a b => by simp [kindIndex]))
    · exact List.pairwise_map.mpr (List.pairwise_of_forall (fun a b => by simp [kindIndex]))
    · intro a ha b hb
      rcases List.mem_map.mp ha with ⟨t, _, rfl⟩
      rcases List.mem_map.mp hb with ⟨u, _, rfl⟩
      simp [kindIndex]
    · simp [kindIndex]
    · intro a ha b hb
      rcases List.mem_append.mp ha with h | h
      · rcases List.mem_map.mp h with ⟨t, _, rfl⟩
        rcases List.mem_cons.mp hb with rfl | hb2
        · simp [kindIndex]
        · rcases List.mem_singleton.mp hb2 with rfl
          simp [kindIndex]
      · rcases List.mem_map.mp h with ⟨t, _, rfl⟩
        rcases List.mem_cons.mp hb with rfl | hb2
        · simp [kindIndex]
        · rcases List.mem_singleton.mp hb2 with rfl
          simp [kindIndex]
  · unfold streamResponse
    rw [List.countP_append, List.countP_append, List.countP_map, List.countP_map]
    rw [List.countP_eq_zero.mpr (by intro a _; simp [Function.comp, kindIndex]),
        List.countP_eq_zero.mpr (by intro a _; simp [Function.comp, kindIndex])]
    simp [kindIndex]
  · unfold streamResponse
    rw [List.countP_append, List.countP_append, List.countP_map, List.countP_map]
    rw [List.countP_eq_zero.mpr (by intro a _; simp [Function.comp, kindIndex]),
        List.countP_eq_zero.mpr (by intro a _; simp [Function.comp, kindIndex])]
    simp [kindIndex]
  · simp [streamResponse, List.getLast?_append]

/-- C3 as stated is false on the client type: the TS `Citation` interface in
`api.ts` declares `chunk_id: number`, not `number | null`, so a null chunk
reference is not representable in the declared type of a returned Citation. -/
theorem claim_C3_counterexample :
    ¬ ∃ f ∈ citationFields, f.name = "chunk_id" ∧ f.nullable = true := by
  decide

/-- C3 (amended): when no retrieved chunk matches the cited page, the
(spec-modelled) citation mapper still returns the citation with the literal
page number and a null (`none`) chunk reference rather than dropping it;
however, the frontend's declared `Citation` type marks `chunk_id` as
non-nullable — only `section` is nullable — so null chunk references are not
reflected in the declared client type. -/
theorem claim_C3 (retrieved : List RetrievedChunk) (page : Int) (quoted : String)
    (h : ∀ c ∈ retrieved, c.page ≠ page) :
    resolveCitation retrieved page quoted = ⟨page, quoted, none⟩ ∧
    fieldOf citationFields "chunk_id" = some ⟨"chunk_id", false⟩ ∧
    fieldOf citationFields "section" = some ⟨"section", true⟩ := by
  refine ⟨?_, by decide, by decide⟩
  unfold resolveCitation
  rw [bestOnPage_eq_none h]

/-- Witness for C3 with an empty retrieval set. -/
theorem claim_C3_witness :
    resolveCitation [] 3 "q" = ⟨3, "q", none⟩ :=
  (claim_C3 [] 3 "q" (by simp)).1

/-- C4: the client stream parser yields, in input order, exactly the JSON
values of complete `data: `-prefixed lines occurring before the first
`data: [DONE]` line (skipping payloads the JSON parser rejects), and yields
nothing at or after that sentinel — `sseExpected` is that description written
out from the claim, and `chatStream` is the code's buffered loop. -/
theorem claim_C4 {J : Type} (parse : List Char → Option J)
    (chunks : List (List Char)) :
    chatStream parse chunks = sseExpected parse chunks :=
  chatStream_eq_sseExpected parse chunks

/-- C5: the polling loop schedules another status request exactly when the
returned status is `uploaded` or `processing`; once a poll returns `ready` or
`failed`, no further status request for that document is scheduled. -/
theorem claim_C5 (st : DocStatus) (rest : List DocStatus) :
    (schedulesNext (.success st) = true ↔ (st = .uploaded ∨ st = .processing)) ∧
    ((st = .ready ∨ st = .failed) → pollTrace (st :: rest) = [st]) := by
  constructor
  · cases st <;> simp [schedulesNext]
  · rintro (h | h) <;> subst h <;> simp [pollTrace]

/-- Witness for C5: a `ready` response ends the polling trace. -/
theorem claim_C5_witness :
    pollTrace [DocStatus.ready, DocStatus.processing] = [DocStatus.ready] :=
  (claim_C5 DocStatus.ready [DocStatus.processing]).2 (Or.inl rfl)

/-- C6: a file is accepted exactly when it is a PDF within the 50 MB and
100-page limits; an accepted file yields a document in `uploaded` status and
triggers ingestion, while a rejected file yields no document and starts no
ingestion. -/
theorem claim_C6 (f : UploadFile) :
    ((uploadFlow f).accepted = true ↔
      (f.isPdf = true ∧ f.size ≤ maxFileSize ∧ f.pageCount ≤ maxPages)) ∧
    ((uploadFlow f).accepted = true →
      uploadFlow f = ⟨true, some .uploaded, true⟩) ∧
    ((uploadFlow f).accepted = false →
      (uploadFlow f).docStatus = none ∧ (uploadFlow f).ingestionTriggered = false) := by
  unfold uploadFlow dropzoneAccepts uploadEndpoint
  by_cases h1 : f.isPdf
  · by_cases h2 : f.size ≤ maxFileSize
    · by_cases h3 : f.pageCount ≤ maxPages
      · simp [h1, h2, h3]
      · simp [h1, h2, h3]
    · simp [h1, h2]
  · simp [h1]

/-- Witness for C6: one accepted file and one rejected (too many pages). -/
theorem claim_C6_witness :
    uploadFlow ⟨true, 1000, 10⟩ = ⟨true, some DocStatus.uploaded, true⟩ ∧
    (uploadFlow ⟨true, 1000, 200⟩).docStatus = none :=
  ⟨(claim_C6 ⟨true, 1000, 10⟩).2.1 (by decide),
   ((claim_C6 ⟨true, 1000, 200⟩).2.2 (by decide)).1⟩

/-- C7: the synchronous chat request body carries exactly `document_id`,
`message`, and — when a session id was passed — `session_id`; the response
type carries exactly `session_id`, `message_id`, `content`, `citations`. -/
theorem claim_C7 (documentId : Int) (message : String) (sessionId : Option Int) :
    ((chatSendBody documentId message sessionId).map Prod.fst =
      ["document_id", "message"] ++
        (match sessionId with | some _ => ["session_id"] | none => [])) ∧
    chatResponseFields.map TsField.name =
      ["session_id", "message_id", "content", "citations"] := by
  cases sessionId <;> simp [chatSendBody, jsonFields, chatResponseFields]

/-- C8 as stated is false on the client type: the TS `ChatMessage` interface
in `api.ts` has no `session_id` field, and its `citations` field is declared
nullable (`Citation[] | null`). -/
theorem claim_C8_counterexample :
    ¬ ("session_id" ∈ chatMessageFields.map TsField.name ∧
       ∀ f ∈ chatMessageFields, f.name = "citations" → f.nullable = false) := by
  decide

/-- C8 (amended): a `ChatMessage` as returned by session history carries
exactly `id`, `role`, `content`, `citations`, `created_at`, where `citations`
is declared nullable and there is no `session_id` field on the message
itself; the session id is carried at the history-response level. -/
theorem claim_C8 :
    chatMessageFields.map TsField.name =
      ["id", "role", "content", "citations", "created_at"] ∧
    fieldOf chatMessageFields "citations" = some ⟨"citations", true⟩ ∧
    fieldOf chatMessageFields "session_id" = none ∧
    "session_id" ∈ chatHistoryFields := by
  decide

/-- C9: `setZoom z` stores the clamp of `z` into `[1/2, 3]` — `z` itself when
in range, else the nearer bound — `setZoom` is idempotent on equal arguments,
and after any sequence of store operations from the initial state the zoom
lies in `[1/2, 3]`. -/
theorem claim_C9 (z : ℚ) (s : AppState) :
    (1/2 ≤ (setZoom z s).zoom ∧ (setZoom z s).zoom ≤ 3) ∧
    (1/2 ≤ z → z ≤ 3 → (setZoom z s).zoom = z) ∧
    (z < 1/2 → (setZoom z s).zoom = 1/2) ∧
    (3 < z → (setZoom z s).zoom = 3) ∧
    setZoom z (setZoom z s) = setZoom z s ∧
    (∀ ops : List StoreOp,
      1/2 ≤ (applyOps ops initialState).zoom ∧
        (applyOps ops initialState).zoom ≤ 3) := by
  refine ⟨⟨le_max_left _ _, max_le (by norm_num) (min_le_left _ _)⟩, ?_, ?_, ?_, rfl, ?_⟩
  · intro h1 h2
    show max (1/2 : ℚ) (min 3 z) = z
    rw [min_eq_right h2, max_eq_right h1]
  · intro h
    show max (1/2 : ℚ) (min 3 z) = 1/2
    rw [min_eq_right (le_trans h.le (by norm_num)), max_eq_left h.le]
  · intro h
    show max (1/2 : ℚ) (min 3 z) = 3
    rw [min_eq_left h.le, max_eq_right (by norm_num)]
  · intro ops
    exact applyOps_zoom ops initialState (by norm_num [initialState])
      (by norm_num [initialState])

/-- Witness for C9: an in-range zoom is stored as-is, an overlarge one is
clamped to 3. -/
theorem claim_C9_witness :
    (setZoom 2 initialState).zoom = 2 ∧ (setZoom 5 initialState).zoom = 3 :=
  ⟨(claim_C9 2 initialState).2.1 (by norm_num) (by norm_num),
   (claim_C9 5 initialState).2.2.2.1 (by norm_num)⟩

/-- C10: `setActiveCitation (some c)` sets the active citation to `c` and the
current page to `c.page` and changes nothing else; `setActiveCitation none`
clears the active citation and changes nothing else, including the current
page. -/
theorem claim_C10 (c : ClientCitation) (s : AppState) :
    ((setActiveCitation (some c) s).activeCitation = some c ∧
     (setActiveCitation (some c) s).currentPage = c.page ∧
     (setActiveCitation (some c) s).currentDocument = s.currentDocument ∧
     (setActiveCitation (some c) s).zoom = s.zoom ∧
     (setActiveCitation (some c) s).chatSessionId = s.chatSessionId ∧
     (setActiveCitation (some c) s).isChatOpen = s.isChatOpen ∧
     (setActiveCitation (some c) s).documents = s.documents ∧
     (setActiveCitation (some c) s).guestDocIds = s.guestDocIds ∧
     (setActiveCitation (some c) s).isLoginModalOpen = s.isLoginModalOpen) ∧
    ((setActiveCitation none s).activeCitation = none ∧
     (setActiveCitation none s).currentPage = s.currentPage ∧
     (setActiveCitation none s).currentDocument = s.currentDocument ∧
     (setActiveCitation none s).zoom = s.zoom ∧
     (setActiveCitation none s).chatSessionId = s.chatSessionId ∧
     (setActiveCitation none s).isChatOpen = s.isChatOpen ∧
     (setActiveCitation none s).documents = s.documents ∧
     (setActiveCitation none s).guestDocIds = s.guestDocIds ∧
     (setActiveCitation none s).isLoginModalOpen = s.isLoginModalOpen) :=
  ⟨⟨rfl, rfl, rfl, rfl, rfl, rfl, rfl, rfl, rfl⟩,
   ⟨rfl, rfl, rfl, rfl, rfl, rfl, rfl, rfl, rfl⟩⟩
